import Mathlib

/-!
Verification of the orbit-crab rendering core: a shallow embedding of the
canvas math (`rotateX`, `rotateY`, the camera projection pipeline), the
orbital path builder, the drawing routines, and the controller's
eccentricity clamping, with theorems settling the spec's claims.
Real-number arithmetic stands in for IEEE doubles; the "within
floating-point tolerance" clauses of the spec become exact equalities.
-/

noncomputable section

/-- A 3D point, the embedding of the `[number, number, number]` tuples and
`{x, y, z}` records of the source. -/
structure Point3 where
  x : ℝ
  y : ℝ
  z : ℝ

/-- `rotateX` from math.ts: rotate a point about the X axis. -/
def rotateX (point : Point3) (angle : ℝ) : Point3 :=
  let cos := Real.cos angle
  let sin := Real.sin angle
  ⟨point.x, point.y * cos - point.z * sin, point.y * sin + point.z * cos⟩

/-- `rotateY` from math.ts: rotate a point about the Y axis. -/
def rotateY (point : Point3) (angle : ℝ) : Point3 :=
  let cos := Real.cos angle
  let sin := Real.sin angle
  ⟨point.x * cos + point.z * sin, point.y, -point.x * sin + point.z * cos⟩

/-- `toCameraSpaceFactory` from math.ts, with the camera accessors replaced
by their current values: X-rotation first, then Y-rotation. -/
def toCameraSpace (rotationX rotationY : ℝ) (point : Point3) : Point3 :=
  rotateY (rotateX point rotationX) rotationY

/-- `project3DFactory` from math.ts: camera space, add camera distance to z,
scale by `fov / (fov + z)` with `fov = 1000`, recentre on the viewport. -/
def project3D (rotationX rotationY distZ innerWidth innerHeight : ℝ)
    (point : Point3) : ℝ × ℝ :=
  let p := toCameraSpace rotationX rotationY point
  let z := p.z + distZ
  let fov : ℝ := 1000
  let scale := fov / (fov + z)
  (p.x * scale + innerWidth / 2, p.y * scale + innerHeight / 2)

/-- Reference pipeline written from the spec's words (section 4.2): rotate
about X by `rotationX`, then about Y by `rotationY`, add the camera distance
to z, then `scale = 1000 / (1000 + z)` and recentre on the viewport. -/
def project3DSpec (rotationX rotationY distZ innerWidth innerHeight : ℝ)
    (point : Point3) : ℝ × ℝ :=
  let q1 := rotateX point rotationX
  let q2 := rotateY q1 rotationY
  let zc := q2.z + distZ
  (q2.x * (1000 / (1000 + zc)) + innerWidth / 2,
   q2.y * (1000 / (1000 + zc)) + innerHeight / 2)

/-- C5: rotating about X (resp. Y) by an angle and then by its negation
returns the original point, and rotating by 0 is the identity. -/
theorem rotate_roundtrip_identity (p : Point3) (theta : ℝ) :
    rotateX (rotateX p theta) (-theta) = p ∧
    rotateY (rotateY p theta) (-theta) = p ∧
    rotateX p 0 = p ∧ rotateY p 0 = p := by
  obtain ⟨x, y, z⟩ := p
  have h := Real.sin_sq_add_cos_sq theta
  refine ⟨?_, ?_, ?_, ?_⟩
  · simp only [rotateX, Real.cos_neg, Real.sin_neg, Point3.mk.injEq]
    refine ⟨trivial, by linear_combination y * h, by linear_combination z * h⟩
  · simp only [rotateY, Real.cos_neg, Real.sin_neg, Point3.mk.injEq]
    refine ⟨by linear_combination x * h, trivial, by linear_combination z * h⟩
  · simp only [rotateX, Real.cos_zero, Real.sin_zero, Point3.mk.injEq]
    refine ⟨trivial, by ring, by ring⟩
  · simp only [rotateY, Real.cos_zero, Real.sin_zero, Point3.mk.injEq]
    refine ⟨by ring, trivial, by ring⟩

/-- C4: the implemented projection pipeline agrees with the spec's reference
definition (X-rotation, then Y-rotation, then distance offset and
`fov / (fov + z)` scaling with `fov = 1000`), and the denominator is not
clamped: a camera-space depth of `-1000` makes it exactly zero. -/
theorem project3D_matches_spec (rx ry distZ innerW innerH : ℝ) (p : Point3) :
    project3D rx ry distZ innerW innerH p
      = project3DSpec rx ry distZ innerW innerH p ∧
    ((toCameraSpace rx ry p).z + distZ = -1000 →
      1000 + ((toCameraSpace rx ry p).z + distZ) = 0) := by
  constructor
  · rfl
  · intro h
    rw [h]
    norm_num

/-- Witness for C4 at a concrete degenerate input: the point `(0, 0, -1000)`
under the identity camera has camera-space depth `-1000`, and there the
projection denominator vanishes. -/
theorem project3D_matches_spec_witness :
    ((toCameraSpace 0 0 ⟨0, 0, -1000⟩).z + 0 = -1000) ∧
    (1000 + ((toCameraSpace 0 0 ⟨0, 0, -1000⟩).z + 0) = 0) := by
  have h : (toCameraSpace 0 0 (⟨0, 0, -1000⟩ : Point3)).z + 0 = -1000 := by
    norm_num [toCameraSpace, rotateX, rotateY]
  exact ⟨h, (project3D_matches_spec 0 0 0 0 0 ⟨0, 0, -1000⟩).2 h⟩

/-- `OrbitParams` from orbit.ts: semi-major axis `a`, eccentricity `e`,
inclination `i`, RAAN `raan` and argument of periapsis `w`, in radians. -/
structure OrbitParams where
  a : ℝ
  e : ℝ
  i : ℝ
  raan : ℝ
  w : ℝ

/-- One iteration of `rebuildOrbitPath`'s loop body: conic radius
`r = a(1 - e²)/(1 + e·cos ν)`, perifocal coordinates, and the combined
3-1-3 rotation into the inertial frame, exactly as written in orbit.ts. -/
def orbitPoint (params : OrbitParams) (nu : ℝ) : Point3 :=
  let r := params.a * (1 - params.e * params.e) / (1 + params.e * Real.cos nu)
  let x_orb := r * Real.cos nu
  let y_orb := r * Real.sin nu
  let cosO := Real.cos params.raan
  let sinO := Real.sin params.raan
  let cosi := Real.cos params.i
  let sini := Real.sin params.i
  let cosw := Real.cos params.w
  let sinw := Real.sin params.w
  { x := (cosO * cosw - sinO * sinw * cosi) * x_orb
          + (-cosO * sinw - sinO * cosw * cosi) * y_orb
    y := (sinO * cosw + cosO * sinw * cosi) * x_orb
          + (-sinO * sinw + cosO * cosw * cosi) * y_orb
    z := (sinw * sini) * x_orb + (cosw * sini) * y_orb }

/-- The exact semantics of the loop header
`for (let deg = 0; deg < 360; deg += step)`: the list of values `deg` takes,
with a fuel bound on iterations (any fuel at least the iteration count gives
the same list). -/
def degSamples (step : ℚ) : ℚ → ℕ → List ℚ
  | _, 0 => []
  | deg, fuel + 1 =>
      if deg < 360 then deg :: degSamples step (deg + step) fuel else []

/-- `rebuildOrbitPath` from orbit.ts: at each `deg` the loop visits, take
`nu = deg·π/180` and push the transformed orbital point. -/
def rebuildOrbitPath (params : OrbitParams) (steps : ℕ := 360) : List Point3 :=
  (degSamples (360 / (steps : ℚ)) 0 (steps + 1)).map
    (fun deg : ℚ => orbitPoint params ((deg : ℝ) * Real.pi / 180))

/-- Distance of a point to the origin. -/
def dist3 (p : Point3) : ℝ := Real.sqrt (p.x ^ 2 + p.y ^ 2 + p.z ^ 2)

lemma degSamples_succ (step d : ℚ) (fuel : ℕ) :
    degSamples step d (fuel + 1)
      = if d < 360 then d :: degSamples step (d + step) fuel else [] := rfl

lemma degSamples_eq (step : ℚ) :
    ∀ (n : ℕ) (d : ℚ), 360 ≤ d + n * step →
      (∀ k : ℕ, k < n → d + k * step < 360) →
      degSamples step d (n + 1) = (List.range n).map (fun k : ℕ => d + (k : ℚ) * step) := by
  intro n
  induction n with
  | zero =>
      intro d hge _
      have : ¬ d < 360 := not_lt.mpr (by simpa using hge)
      simp [degSamples_succ, this]
  | succ n ih =>
      intro d hge hlt
      have hd : d < 360 := by simpa using hlt 0 n.succ_pos
      have h1 : 360 ≤ d + step + n * step := by
        push_cast at hge
        linarith
      have h2 : ∀ k : ℕ, k < n → d + step + k * step < 360 := by
        intro k hk
        have := hlt (k + 1) (by omega)
        push_cast at this
        linarith
      rw [degSamples_succ, if_pos hd, ih (d + step) h1 h2,
        List.range_succ_eq_map, List.map_cons, List.map_map]
      congr 1
      · norm_num
      · refine List.map_congr_left ?_
        intro k _
        simp only [Function.comp]
        push_cast
        ring

lemma rebuildOrbitPath_eq (params : OrbitParams) (steps : ℕ) (h : 0 < steps) :
    rebuildOrbitPath params steps
      = (List.range steps).map
          (fun k : ℕ => orbitPoint params ((k : ℝ) * (360 / (steps : ℝ)) * Real.pi / 180)) := by
  have hs : (0 : ℚ) < (steps : ℚ) := by exact_mod_cast h
  have hstep : (0 : ℚ) < 360 / (steps : ℚ) := by positivity
  have hge : (360 : ℚ) ≤ 0 + (steps : ℚ) * (360 / (steps : ℚ)) := by
    field_simp
  have hlt : ∀ k : ℕ, k < steps → (0 : ℚ) + (k : ℚ) * (360 / (steps : ℚ)) < 360 := by
    intro k hk
    have hk' : (k : ℚ) < (steps : ℚ) := by exact_mod_cast hk
    rw [zero_add]
    calc (k : ℚ) * (360 / (steps : ℚ))
        < (steps : ℚ) * (360 / (steps : ℚ)) := mul_lt_mul_of_pos_right hk' hstep
      _ = 360 := by field_simp
  rw [rebuildOrbitPath, degSamples_eq _ steps 0 hge hlt, List.map_map]
  refine List.map_congr_left ?_
  intro k _
  simp only [Function.comp]
  congr 1
  push_cast
  ring

lemma rebuildOrbitPath_length (params : OrbitParams) (steps : ℕ) (h : 0 < steps) :
    (rebuildOrbitPath params steps).length = steps := by
  rw [rebuildOrbitPath_eq params steps h, List.length_map, List.length_range]

lemma rebuildOrbitPath_getD (params : OrbitParams) (steps : ℕ) (h : 0 < steps)
    (k : ℕ) (hk : k < steps) :
    (rebuildOrbitPath params steps).getD k ⟨0, 0, 0⟩
      = orbitPoint params ((k : ℝ) * (360 / (steps : ℝ)) * Real.pi / 180) := by
  rw [rebuildOrbitPath_eq params steps h, List.getD_eq_getElem?_getD]
  simp [List.getElem?_map, List.getElem?_range, hk]

lemma mem_rebuildOrbitPath (params : OrbitParams) (steps : ℕ) (p : Point3)
    (hp : p ∈ rebuildOrbitPath params steps) :
    ∃ nu : ℝ, p = orbitPoint params nu := by
  simp only [rebuildOrbitPath, List.mem_map] at hp
  obtain ⟨d, _, hd⟩ := hp
  exact ⟨_, hd.symm⟩

lemma rot313_normSq (cO sO ci si cw sw xo yo : ℝ)
    (hO : sO ^ 2 + cO ^ 2 = 1) (hi : si ^ 2 + ci ^ 2 = 1)
    (hw : sw ^ 2 + cw ^ 2 = 1) :
    ((cO * cw - sO * sw * ci) * xo + (-cO * sw - sO * cw * ci) * yo) ^ 2
      + ((sO * cw + cO * sw * ci) * xo + (-sO * sw + cO * cw * ci) * yo) ^ 2
      + ((sw * si) * xo + (cw * si) * yo) ^ 2 = xo ^ 2 + yo ^ 2 := by
  linear_combination
    (xo ^ 2 * (cw ^ 2 + sw ^ 2 * ci ^ 2)
        + 2 * xo * yo * (sw * cw * ci ^ 2 - sw * cw)
        + yo ^ 2 * (sw ^ 2 + cw ^ 2 * ci ^ 2)) * hO
      + (xo ^ 2 * sw ^ 2 + 2 * xo * yo * sw * cw + yo ^ 2 * cw ^ 2) * hi
      + (xo ^ 2 + yo ^ 2) * hw

lemma dist3_orbitPoint (params : OrbitParams) (nu : ℝ) :
    dist3 (orbitPoint params nu)
      = |params.a * (1 - params.e * params.e) / (1 + params.e * Real.cos nu)| := by
  have hO := Real.sin_sq_add_cos_sq params.raan
  have hi := Real.sin_sq_add_cos_sq params.i
  have hw := Real.sin_sq_add_cos_sq params.w
  have hnu := Real.sin_sq_add_cos_sq nu
  have key := rot313_normSq (Real.cos params.raan) (Real.sin params.raan)
    (Real.cos params.i) (Real.sin params.i) (Real.cos params.w) (Real.sin params.w)
    (params.a * (1 - params.e * params.e) / (1 + params.e * Real.cos nu) * Real.cos nu)
    (params.a * (1 - params.e * params.e) / (1 + params.e * Real.cos nu) * Real.sin nu)
    hO hi hw
  have hsq : (orbitPoint params nu).x ^ 2 + (orbitPoint params nu).y ^ 2
      + (orbitPoint params nu).z ^ 2
      = (params.a * (1 - params.e * params.e) / (1 + params.e * Real.cos nu)) ^ 2 := by
    simp only [orbitPoint]
    linear_combination key
      + (params.a * (1 - params.e * params.e) / (1 + params.e * Real.cos nu)) ^ 2 * hnu
  simp only [dist3]
  rw [hsq, Real.sqrt_sq_eq_abs]

lemma conic_r_bounds (a e c : ℝ) (ha : 0 < a) (he0 : 0 ≤ e) (he1 : e < 1)
    (hc : -1 ≤ c) (hc' : c ≤ 1) :
    a * (1 - e) ≤ a * (1 - e * e) / (1 + e * c) ∧
      a * (1 - e * e) / (1 + e * c) ≤ a * (1 + e) := by
  have hden : 0 < 1 + e * c := by
    nlinarith [mul_nonneg he0 (by linarith : (0 : ℝ) ≤ c + 1)]
  constructor
  · rw [le_div_iff₀ hden]
    nlinarith [mul_nonneg (mul_nonneg ha.le he0)
      (mul_nonneg (by linarith : (0 : ℝ) ≤ 1 - e) (by linarith : (0 : ℝ) ≤ 1 - c))]
  · rw [div_le_iff₀ hden]
    nlinarith [mul_nonneg (mul_nonneg ha.le he0)
      (mul_nonneg (by linarith : (0 : ℝ) ≤ 1 + c) (by linarith : (0 : ℝ) ≤ 1 + e))]

/-- `getSafeMaxE` from earth.ts: the slider's effective eccentricity maximum,
computed from the current `semiMajorAxisRef` value (a falsy current value,
i.e. `0`, falls back to `EARTH_RADIUS + 4000`). -/
def getSafeMaxE (semiMajorAxisCur : ℝ) : ℝ :=
  let a := if semiMajorAxisCur = 0 then (6371 : ℝ) + 4000 else semiMajorAxisCur
  let rawMax := 1 - 6371 / a
  max 0 (min 0.95 (rawMax - 0.01))

lemma getSafeMaxE_nonneg (x : ℝ) : 0 ≤ getSafeMaxE x := by
  simp only [getSafeMaxE]
  exact le_max_left _ _

lemma getSafeMaxE_le (x : ℝ) : getSafeMaxE x ≤ 0.95 := by
  simp only [getSafeMaxE]
  exact max_le (by norm_num) (min_le_left _ _)

lemma getSafeMaxE_of_ne (x : ℝ) (hx : x ≠ 0) :
    getSafeMaxE x = max 0 (min 0.95 (1 - 6371 / x - 0.01)) := by
  simp only [getSafeMaxE, if_neg hx]

lemma getSafeMaxE_active :
    getSafeMaxE ((6371 : ℝ) + 4000) = 1 - 6371 / ((6371 : ℝ) + 4000) - 0.01 := by
  rw [getSafeMaxE_of_ne _ (by norm_num), min_eq_right (by norm_num),
    max_eq_right (by norm_num)]

/-- C9: for every value of the semi-major-axis ref, `getSafeMaxE` lies
between 0 and 0.95, and 0.95 is a hard cap beyond the periapsis formula:
at `a = 6371000` the raw safe maximum exceeds 0.95 yet the result is 0.95. -/
theorem getSafeMaxE_bounds :
    (∀ x : ℝ, 0 ≤ getSafeMaxE x ∧ getSafeMaxE x ≤ 0.95) ∧
      (0.95 : ℝ) < 1 - 6371 / 6371000 - 0.01 ∧
      getSafeMaxE 6371000 = 0.95 := by
  refine ⟨fun x => ⟨getSafeMaxE_nonneg x, getSafeMaxE_le x⟩, by norm_num, ?_⟩
  rw [getSafeMaxE_of_ne _ (by norm_num), min_eq_left (by norm_num),
    max_eq_right (by norm_num)]

/-- C3: with eccentricity 0, every point of the rebuilt path lies at
distance exactly `a` from the origin, for any inclination, RAAN, argument of
periapsis and sample count (the frame rotation preserves distance). -/
theorem rebuildOrbitPath_circular (a inc raan w : ℝ) (steps : ℕ) (ha : 0 ≤ a) :
    ∀ p ∈ rebuildOrbitPath ⟨a, 0, inc, raan, w⟩ steps, dist3 p = a := by
  intro p hp
  obtain ⟨nu, rfl⟩ := mem_rebuildOrbitPath _ _ _ hp
  rw [dist3_orbitPoint]
  simp [abs_of_nonneg ha]

/-- Witness for C3 at a concrete input. -/
theorem rebuildOrbitPath_circular_witness :
    (0 : ℝ) ≤ 5 ∧ ∀ p ∈ rebuildOrbitPath ⟨5, 0, 1, 2, 3⟩ 360, dist3 p = 5 :=
  ⟨by norm_num, rebuildOrbitPath_circular 5 1 2 3 360 (by norm_num)⟩

/-- C2: for `0 < e < 1` and `a > 0`, every point of the 360-sample path has
distance to the origin between periapsis `a(1-e)` and apoapsis `a(1+e)`; the
sample at index 0 (true anomaly 0°) attains the minimum `a(1-e)` and the
sample at index 180 (true anomaly 180°) attains the maximum `a(1+e)`. -/
theorem rebuildOrbitPath_periapsis_apoapsis (a e inc raan w : ℝ)
    (ha : 0 < a) (he0 : 0 < e) (he1 : e < 1) :
    (∀ p ∈ rebuildOrbitPath ⟨a, e, inc, raan, w⟩ 360,
        a * (1 - e) ≤ dist3 p ∧ dist3 p ≤ a * (1 + e)) ∧
      dist3 ((rebuildOrbitPath ⟨a, e, inc, raan, w⟩ 360).getD 0 ⟨0, 0, 0⟩)
        = a * (1 - e) ∧
      dist3 ((rebuildOrbitPath ⟨a, e, inc, raan, w⟩ 360).getD 180 ⟨0, 0, 0⟩)
        = a * (1 + e) := by
  have hperi : 0 < a * (1 - e) := by nlinarith
  have habs : ∀ nu : ℝ, dist3 (orbitPoint ⟨a, e, inc, raan, w⟩ nu)
      = a * (1 - e * e) / (1 + e * Real.cos nu) := by
    intro nu
    rw [dist3_orbitPoint]
    have hb := conic_r_bounds a e (Real.cos nu) ha he0.le he1
      (Real.neg_one_le_cos nu) (Real.cos_le_one nu)
    show |a * (1 - e * e) / (1 + e * Real.cos nu)| = _
    exact abs_of_nonneg (le_trans hperi.le hb.1)
  refine ⟨?_, ?_, ?_⟩
  · intro p hp
    obtain ⟨nu, rfl⟩ := mem_rebuildOrbitPath _ _ _ hp
    rw [habs nu]
    exact conic_r_bounds a e (Real.cos nu) ha he0.le he1
      (Real.neg_one_le_cos nu) (Real.cos_le_one nu)
  · rw [rebuildOrbitPath_getD _ 360 (by norm_num) 0 (by norm_num)]
    have h0 : ((0 : ℕ) : ℝ) * (360 / ((360 : ℕ) : ℝ)) * Real.pi / 180 = 0 := by
      norm_num
    rw [h0, habs 0, Real.cos_zero]
    rw [div_eq_iff (ne_of_gt (by linarith : (0 : ℝ) < 1 + e * 1))]
    ring
  · rw [rebuildOrbitPath_getD _ 360 (by norm_num) 180 (by norm_num)]
    have h180 : ((180 : ℕ) : ℝ) * (360 / ((360 : ℕ) : ℝ)) * Real.pi / 180
        = Real.pi := by
      norm_num
    rw [h180, habs Real.pi, Real.cos_pi]
    rw [div_eq_iff (ne_of_gt (by linarith : (0 : ℝ) < 1 + e * -1))]
    ring

/-- Witness for C2 at `a = 2`, `e = 1/2`. -/
theorem rebuildOrbitPath_periapsis_apoapsis_witness :
    ((0 : ℝ) < 2 ∧ (0 : ℝ) < 1 / 2 ∧ (1 / 2 : ℝ) < 1) ∧
      ((∀ p ∈ rebuildOrbitPath ⟨2, 1 / 2, 0, 0, 0⟩ 360,
          (2 : ℝ) * (1 - 1 / 2) ≤ dist3 p ∧ dist3 p ≤ 2 * (1 + 1 / 2)) ∧
        dist3 ((rebuildOrbitPath ⟨2, 1 / 2, 0, 0, 0⟩ 360).getD 0 ⟨0, 0, 0⟩)
          = 2 * (1 - 1 / 2) ∧
        dist3 ((rebuildOrbitPath ⟨2, 1 / 2, 0, 0, 0⟩ 360).getD 180 ⟨0, 0, 0⟩)
          = 2 * (1 + 1 / 2)) :=
  ⟨⟨by norm_num, by norm_num, by norm_num⟩,
    rebuildOrbitPath_periapsis_apoapsis 2 (1 / 2) 0 0 0 (by norm_num) (by norm_num)
      (by norm_num)⟩

/-- C1: with the active semi-major axis `a = EARTH_RADIUS + 4000 = 10371`,
the controller's clamped eccentricity `max 0 (min e (getSafeMaxE a))` keeps
the periapsis `a(1 - e')` at least `bodyRadius + 0.01·a` (the configured
safety margin of 0.01 in eccentricity, `bodyRadius = 6371`), and every point
of the orbital path rebuilt from the clamped elements stays at distance at
least `bodyRadius` from the origin. -/
theorem controller_clamp_periapsis (e inc raan w : ℝ) :
    6371 + 0.01 * ((6371 : ℝ) + 4000)
        ≤ ((6371 : ℝ) + 4000)
            * (1 - max 0 (min e (getSafeMaxE ((6371 : ℝ) + 4000)))) ∧
      ∀ p ∈ rebuildOrbitPath
          ⟨(6371 : ℝ) + 4000,
            max 0 (min e (getSafeMaxE ((6371 : ℝ) + 4000))), inc, raan, w⟩ 360,
        6371 ≤ dist3 p := by
  set A : ℝ := (6371 : ℝ) + 4000 with hA
  set M : ℝ := getSafeMaxE A with hM
  set eS : ℝ := max 0 (min e M) with heS
  have hMval : M = 1 - 6371 / A - 0.01 := by rw [hM, hA]; exact getSafeMaxE_active
  have hM0 : 0 ≤ M := getSafeMaxE_nonneg A
  have he0 : 0 ≤ eS := le_max_left _ _
  have heM : eS ≤ M := max_le hM0 (min_le_right _ _)
  have he1 : eS < 1 := lt_of_le_of_lt (heM.trans (getSafeMaxE_le A)) (by norm_num)
  have hAval : A * (1 - M) = 6371 + 0.01 * A := by
    rw [hMval, hA]
    norm_num
  have hbound : 6371 + 0.01 * A ≤ A * (1 - eS) := by
    rw [← hAval]
    have hApos : (0 : ℝ) ≤ A := by rw [hA]; norm_num
    exact mul_le_mul_of_nonneg_left (by linarith) hApos
  refine ⟨hbound, ?_⟩
  intro p hp
  obtain ⟨nu, rfl⟩ := mem_rebuildOrbitPath _ _ _ hp
  rw [dist3_orbitPoint]
  show 6371 ≤ |A * (1 - eS * eS) / (1 + eS * Real.cos nu)|
  have hApos : (0 : ℝ) < A := by rw [hA]; norm_num
  have hb := conic_r_bounds A eS (Real.cos nu) hApos he0 he1
    (Real.neg_one_le_cos nu) (Real.cos_le_one nu)
  have hr0 : 0 ≤ A * (1 - eS) := by nlinarith
  rw [abs_of_nonneg (le_trans hr0 hb.1)]
  have : (6371 : ℝ) ≤ 6371 + 0.01 * A := by rw [hA]; norm_num
  linarith [hb.1, hbound]

/-- Witness for C1: with the slider at `e = 0`, the path's first sample
`(10371, 0, 0)` is a member of the rebuilt path and lies outside the body. -/
theorem controller_clamp_periapsis_witness :
    (⟨6371 + 4000, 0, 0⟩ : Point3) ∈ rebuildOrbitPath
        ⟨(6371 : ℝ) + 4000,
          max 0 (min 0 (getSafeMaxE ((6371 : ℝ) + 4000))), 0, 0, 0⟩ 360 ∧
      6371 ≤ dist3 (⟨6371 + 4000, 0, 0⟩ : Point3) := by
  have hM0 : (0 : ℝ) ≤ getSafeMaxE ((6371 : ℝ) + 4000) :=
    getSafeMaxE_nonneg _
  have he : max 0 (min 0 (getSafeMaxE ((6371 : ℝ) + 4000))) = 0 := by
    rw [min_eq_left hM0, max_self]
  have hmem : (⟨6371 + 4000, 0, 0⟩ : Point3) ∈ rebuildOrbitPath
      ⟨(6371 : ℝ) + 4000,
        max 0 (min 0 (getSafeMaxE ((6371 : ℝ) + 4000))), 0, 0, 0⟩ 360 := by
    rw [he, rebuildOrbitPath_eq _ 360 (by norm_num)]
    refine List.mem_map.mpr ⟨0, List.mem_range.mpr (by norm_num), ?_⟩
    have h0 : ((0 : ℕ) : ℝ) * (360 / ((360 : ℕ) : ℝ)) * Real.pi / 180 = 0 := by
      norm_num
    rw [h0]
    simp [orbitPoint]
  exact ⟨hmem, (controller_clamp_periapsis 0 0 0 0).2 _ hmem⟩

/-- The canvas commands the renderer issues: the subset of the 2D-context
API the source uses, with snapped integer coordinates where the source
rounds before issuing the primitive. -/
inductive CanvasCmd where
  | save
  | restore
  | beginPath
  | closePath
  | stroke
  | moveTo (x y : ℤ)
  | lineTo (x y : ℤ)
  | setSmoothing (enabled : Bool)
  | setLineCap (cap : String)
  | setLineJoin (join : String)
  | setLineDash (dashOn dashOff : ℝ)
  | setStrokeStyle (style : String)
  | setLineWidth (width : ℝ)

/-- Scale a world point by `SCALE`, project it, and round to integer pixels,
as `drawOrbitPath` does for each path point. -/
def projRound (project : Point3 → ℝ × ℝ) (SCALE : ℝ) (p : Point3) : ℤ × ℤ :=
  let s := project ⟨p.x * SCALE, p.y * SCALE, p.z * SCALE⟩
  (round s.1, round s.2)

/-- The loop of `drawOrbitPath` with the mutable `started`/`first` locals
made explicit: returns the emitted commands and the final values of the two
locals. -/
def drawLoop (pr : Point3 → ℤ × ℤ) :
    List Point3 → Bool → Option (ℤ × ℤ) →
      List CanvasCmd × Bool × Option (ℤ × ℤ)
  | [], started, first => ([], started, first)
  | q :: rest, started, first =>
      let s := pr q
      if started then
        let r := drawLoop pr rest started first
        (CanvasCmd.lineTo s.1 s.2 :: r.1, r.2.1, r.2.2)
      else
        let r := drawLoop pr rest true (some s)
        (CanvasCmd.beginPath :: CanvasCmd.moveTo s.1 s.2 :: r.1, r.2.1, r.2.2)

/-- `drawOrbitPath` from orbit.ts: early return on an empty path, otherwise
dash/style setup, the projected polyline, and — when the loop started — a
final segment back to the first projected point, a stroke, and restore. -/
def drawOrbitPath (project : Point3 → ℝ × ℝ) (SCALE : ℝ)
    (path : List Point3) : List CanvasCmd :=
  if path.length = 0 then []
  else
    let r := drawLoop (projRound project SCALE) path false none
    [CanvasCmd.save, CanvasCmd.setSmoothing false,
      CanvasCmd.setLineCap "round", CanvasCmd.setLineJoin "round",
      CanvasCmd.setLineDash 6 6,
      CanvasCmd.setStrokeStyle "rgba(255, 107, 53, 0.9)",
      CanvasCmd.setLineWidth 2]
    ++ r.1
    ++ (match r.2.1, r.2.2 with
        | true, some f => [CanvasCmd.lineTo f.1 f.2, CanvasCmd.stroke]
        | _, _ => [])
    ++ [CanvasCmd.restore]

lemma drawLoop_started (pr : Point3 → ℤ × ℤ) :
    ∀ (l : List Point3) (f : Option (ℤ × ℤ)),
      drawLoop pr l true f
        = (l.map (fun q => CanvasCmd.lineTo (pr q).1 (pr q).2), true, f) := by
  intro l
  induction l with
  | nil => intro f; rfl
  | cons q rest ih =>
      intro f
      simp [drawLoop, ih]

lemma drawLoop_cons (pr : Point3 → ℤ × ℤ) (p : Point3) (rest : List Point3) :
    drawLoop pr (p :: rest) false none
      = (CanvasCmd.beginPath :: CanvasCmd.moveTo (pr p).1 (pr p).2
            :: rest.map (fun q => CanvasCmd.lineTo (pr q).1 (pr q).2),
          true, some (pr p)) := by
  simp [drawLoop, drawLoop_started]

/-- C6: for positive `steps` the rebuilt path has exactly `steps` points,
the k-th point sampled at true anomaly `k·(360/steps)` degrees (strictly
increasing in k, starting at ν = 0), and `drawOrbitPath` treats the path as
closed: its command trace ends with a segment back to the first projected
point before the stroke. -/
theorem path_count_order_closed (params : OrbitParams) (steps : ℕ)
    (h : 0 < steps) :
    (rebuildOrbitPath params steps).length = steps ∧
      (∀ k : ℕ, k < steps →
        (rebuildOrbitPath params steps).getD k ⟨0, 0, 0⟩
          = orbitPoint params ((k : ℝ) * (360 / (steps : ℝ)) * Real.pi / 180)) ∧
      (∀ k1 k2 : ℕ, k1 < k2 →
        (k1 : ℝ) * (360 / (steps : ℝ)) * Real.pi / 180
          < (k2 : ℝ) * (360 / (steps : ℝ)) * Real.pi / 180) ∧
      ∀ (project : Point3 → ℝ × ℝ) (SCALE : ℝ) (p : Point3)
          (rest : List Point3),
        drawOrbitPath project SCALE (p :: rest)
          = [CanvasCmd.save, CanvasCmd.setSmoothing false,
              CanvasCmd.setLineCap "round", CanvasCmd.setLineJoin "round",
              CanvasCmd.setLineDash 6 6,
              CanvasCmd.setStrokeStyle "rgba(255, 107, 53, 0.9)",
              CanvasCmd.setLineWidth 2, CanvasCmd.beginPath,
              CanvasCmd.moveTo (projRound project SCALE p).1
                (projRound project SCALE p).2]
            ++ rest.map (fun q =>
                CanvasCmd.lineTo (projRound project SCALE q).1
                  (projRound project SCALE q).2)
            ++ [CanvasCmd.lineTo (projRound project SCALE p).1
                  (projRound project SCALE p).2,
                CanvasCmd.stroke, CanvasCmd.restore] := by
  refine ⟨rebuildOrbitPath_length _ _ h,
    fun k hk => rebuildOrbitPath_getD _ _ h k hk, ?_, ?_⟩
  · intro k1 k2 hk
    have hs : (0 : ℝ) < (steps : ℝ) := by exact_mod_cast h
    have hk' : (k1 : ℝ) < (k2 : ℝ) := by exact_mod_cast hk
    have hC : (0 : ℝ) < 360 / (steps : ℝ) * Real.pi / 180 := by positivity
    calc (k1 : ℝ) * (360 / (steps : ℝ)) * Real.pi / 180
        = (k1 : ℝ) * (360 / (steps : ℝ) * Real.pi / 180) := by ring
      _ < (k2 : ℝ) * (360 / (steps : ℝ) * Real.pi / 180) :=
          mul_lt_mul_of_pos_right hk' hC
      _ = (k2 : ℝ) * (360 / (steps : ℝ)) * Real.pi / 180 := by ring
  · intro project SCALE p rest
    simp [drawOrbitPath, drawLoop_cons]

/-- Witness for C6 at `steps = 3`. -/
theorem path_count_order_closed_witness :
    0 < 3 ∧
      ((rebuildOrbitPath ⟨1, 0, 0, 0, 0⟩ 3).length = 3 ∧
        (∀ k : ℕ, k < 3 →
          (rebuildOrbitPath ⟨1, 0, 0, 0, 0⟩ 3).getD k ⟨0, 0, 0⟩
            = orbitPoint ⟨1, 0, 0, 0, 0⟩
                ((k : ℝ) * (360 / ((3 : ℕ) : ℝ)) * Real.pi / 180)) ∧
        (∀ k1 k2 : ℕ, k1 < k2 →
          (k1 : ℝ) * (360 / ((3 : ℕ) : ℝ)) * Real.pi / 180
            < (k2 : ℝ) * (360 / ((3 : ℕ) : ℝ)) * Real.pi / 180) ∧
        ∀ (project : Point3 → ℝ × ℝ) (SCALE : ℝ) (p : Point3)
            (rest : List Point3),
          drawOrbitPath project SCALE (p :: rest)
            = [CanvasCmd.save, CanvasCmd.setSmoothing false,
                CanvasCmd.setLineCap "round", CanvasCmd.setLineJoin "round",
                CanvasCmd.setLineDash 6 6,
                CanvasCmd.setStrokeStyle "rgba(255, 107, 53, 0.9)",
                CanvasCmd.setLineWidth 2, CanvasCmd.beginPath,
                CanvasCmd.moveTo (projRound project SCALE p).1
                  (projRound project SCALE p).2]
              ++ rest.map (fun q =>
                  CanvasCmd.lineTo (projRound project SCALE q).1
                    (projRound project SCALE q).2)
              ++ [CanvasCmd.lineTo (projRound project SCALE p).1
                    (projRound project SCALE p).2,
                  CanvasCmd.stroke, CanvasCmd.restore]) :=
  ⟨by norm_num, path_count_order_closed ⟨1, 0, 0, 0, 0⟩ 3 (by norm_num)⟩

/-- The `Camera` state from earth.ts. -/
structure Camera where
  x : ℝ
  y : ℝ
  z : ℝ
  rotationX : ℝ
  rotationY : ℝ

/-- The `MouseState` record from earth.ts. -/
structure MouseState where
  isDown : Bool
  lastX : ℝ
  lastY : ℝ

/-- `handleMouseMove` from earth.ts: a no-op unless the button is down;
otherwise rotate the camera by the pointer delta — `rotationY` freely,
`rotationX` clamped to `[-π/2, π/2]` — and record the new pointer position. -/
def handleMouseMove (m : MouseState) (cam : Camera) (clientX clientY : ℝ) :
    Camera × MouseState :=
  if !m.isDown then (cam, m)
  else
    let deltaX := clientX - m.lastX
    let deltaY := clientY - m.lastY
    ({ cam with
        rotationY := cam.rotationY + deltaX * 0.01,
        rotationX := max (-(Real.pi / 2))
          (min (Real.pi / 2) (cam.rotationX + deltaY * 0.01)) },
      { m with lastX := clientX, lastY := clientY })

/-- C7: after any drag update with the button down, `rotationX` lies in
`[-π/2, π/2]` whatever the starting state and delta magnitude, while
`rotationY` is updated by the delta without constraint. -/
theorem drag_clamps_rotationX (m : MouseState) (cam : Camera)
    (clientX clientY : ℝ) (hdown : m.isDown = true) :
    -(Real.pi / 2) ≤ ((handleMouseMove m cam clientX clientY).1).rotationX ∧
      ((handleMouseMove m cam clientX clientY).1).rotationX ≤ Real.pi / 2 ∧
      ((handleMouseMove m cam clientX clientY).1).rotationY
        = cam.rotationY + (clientX - m.lastX) * 0.01 := by
  simp only [handleMouseMove, hdown, Bool.not_true, Bool.false_eq_true,
    if_false]
  refine ⟨le_max_left _ _, ?_, trivial⟩
  exact max_le (by linarith [Real.pi_pos]) (min_le_left _ _)

/-- Witness for C7 at a concrete drag from `(0,0)` to `(3,4)`. -/
theorem drag_clamps_rotationX_witness :
    (⟨true, 0, 0⟩ : MouseState).isDown = true ∧
      (-(Real.pi / 2)
          ≤ ((handleMouseMove ⟨true, 0, 0⟩ ⟨0, 0, 3000, 0, 0⟩ 3 4).1).rotationX ∧
        ((handleMouseMove ⟨true, 0, 0⟩ ⟨0, 0, 3000, 0, 0⟩ 3 4).1).rotationX
          ≤ Real.pi / 2 ∧
        ((handleMouseMove ⟨true, 0, 0⟩ ⟨0, 0, 3000, 0, 0⟩ 3 4).1).rotationY
          = (⟨0, 0, 3000, 0, 0⟩ : Camera).rotationY
              + (3 - (⟨true, 0, 0⟩ : MouseState).lastX) * 0.01) :=
  ⟨rfl, drag_clamps_rotationX ⟨true, 0, 0⟩ ⟨0, 0, 3000, 0, 0⟩ 3 4 rfl⟩

/-- `drawSatellite` from satellite.ts: if the position accessor yields no
position (propagator not yet initialized) return immediately with no
drawing; otherwise project the scaled position and draw the wireframe cube
with its connector edges and the two solar-panel fins. -/
def drawSatellite (pos : Option Point3) (project : Point3 → ℝ × ℝ)
    (SCALE : ℝ) : List CanvasCmd :=
  match pos with
  | none => []
  | some p =>
      let s := project ⟨p.x * SCALE, p.y * SCALE, p.z * SCALE⟩
      let sx := s.1
      let sy := s.2
      let cubeSize : ℝ := 6
      let panelSize : ℝ := 12
      let panelOffset : ℝ := cubeSize + 3
      [CanvasCmd.setSmoothing false, CanvasCmd.setLineCap "square",
        CanvasCmd.setLineJoin "miter", CanvasCmd.setStrokeStyle "#ff6b35",
        CanvasCmd.setLineWidth 2,
        CanvasCmd.beginPath,
        CanvasCmd.moveTo (round (sx - cubeSize)) (round (sy - cubeSize)),
        CanvasCmd.lineTo (round (sx + cubeSize)) (round (sy - cubeSize)),
        CanvasCmd.lineTo (round (sx + cubeSize)) (round (sy + cubeSize)),
        CanvasCmd.lineTo (round (sx - cubeSize)) (round (sy + cubeSize)),
        CanvasCmd.closePath,
        CanvasCmd.moveTo (round (sx - cubeSize + 2)) (round (sy - cubeSize + 2)),
        CanvasCmd.lineTo (round (sx + cubeSize + 2)) (round (sy - cubeSize + 2)),
        CanvasCmd.lineTo (round (sx + cubeSize + 2)) (round (sy + cubeSize + 2)),
        CanvasCmd.lineTo (round (sx - cubeSize + 2)) (round (sy + cubeSize + 2)),
        CanvasCmd.closePath,
        CanvasCmd.moveTo (round (sx - cubeSize)) (round (sy - cubeSize)),
        CanvasCmd.lineTo (round (sx - cubeSize + 2)) (round (sy - cubeSize + 2)),
        CanvasCmd.moveTo (round (sx + cubeSize)) (round (sy - cubeSize)),
        CanvasCmd.lineTo (round (sx + cubeSize + 2)) (round (sy - cubeSize + 2)),
        CanvasCmd.moveTo (round (sx + cubeSize)) (round (sy + cubeSize)),
        CanvasCmd.lineTo (round (sx + cubeSize + 2)) (round (sy + cubeSize + 2)),
        CanvasCmd.moveTo (round (sx - cubeSize)) (round (sy + cubeSize)),
        CanvasCmd.lineTo (round (sx - cubeSize + 2)) (round (sy + cubeSize + 2)),
        CanvasCmd.stroke,
        CanvasCmd.beginPath,
        CanvasCmd.moveTo (round (sx - panelOffset)) (round (sy - panelSize / 2)),
        CanvasCmd.lineTo (round (sx - panelOffset)) (round (sy + panelSize / 2)),
        CanvasCmd.lineTo (round (sx - panelOffset - 2)) (round (sy + panelSize / 2)),
        CanvasCmd.lineTo (round (sx - panelOffset - 2)) (round (sy - panelSize / 2)),
        CanvasCmd.closePath, CanvasCmd.stroke,
        CanvasCmd.beginPath,
        CanvasCmd.moveTo (round (sx + panelOffset)) (round (sy - panelSize / 2)),
        CanvasCmd.lineTo (round (sx + panelOffset)) (round (sy + panelSize / 2)),
        CanvasCmd.lineTo (round (sx + panelOffset + 2)) (round (sy + panelSize / 2)),
        CanvasCmd.lineTo (round (sx + panelOffset + 2)) (round (sy - panelSize / 2)),
        CanvasCmd.closePath, CanvasCmd.stroke,
        CanvasCmd.beginPath,
        CanvasCmd.moveTo (round (sx - cubeSize)) (round sy),
        CanvasCmd.lineTo (round (sx - panelOffset)) (round sy),
        CanvasCmd.moveTo (round (sx + cubeSize)) (round sy),
        CanvasCmd.lineTo (round (sx + panelOffset)) (round sy),
        CanvasCmd.stroke]

/-- C8: whenever the satellite position accessor returns null,
`drawSatellite` returns immediately and issues no drawing command. -/
theorem drawSatellite_none (project : Point3 → ℝ × ℝ) (SCALE : ℝ) :
    drawSatellite none project SCALE = [] := rfl

/-- The `Star` record from stars.ts (named `ScreenStar` here: Lean already
uses `Star` for the star-operation class). -/
structure ScreenStar where
  x : ℝ
  y : ℝ
  radius : ℝ
  opacity : ℝ

/-- `ensureStars` from stars.ts, with `Math.random` modelled as a stream
`rand` of draws (the k-th generated star reads the stream at positions
`4k..4k+3`, in the source's order x, y, radius, opacity): a non-empty input
array is returned as is, an empty one is refilled with `count` stars. -/
def ensureStars (stars : List ScreenStar) (width height : ℝ) (count : ℕ)
    (rand : ℕ → ℝ) : List ScreenStar :=
  if 0 < stars.length then stars
  else
    (List.range count).map fun k =>
      { x := rand (4 * k) * width
        y := rand (4 * k + 1) * height
        radius := rand (4 * k + 2) * 1.5
        opacity := rand (4 * k + 3) * 0.8 + 0.2 }

/-- The star-set effect of the resize handler in earth.ts: the cached star
array is cleared, which is the only way stars get regenerated. -/
def resizeStars (stars : List ScreenStar) : List ScreenStar := []

/-- C10: `ensureStars` returns a non-empty input unchanged whatever the
dimensions and count; the resize handler clears the cache; and on an empty
input it generates exactly `count` stars with `x ∈ [0, width)`,
`y ∈ [0, height)`, `radius ∈ [0, 1.5)`, `opacity ∈ [0.2, 1.0)` (given the
`Math.random` contract of draws in `[0, 1)` and positive dimensions). -/
theorem ensureStars_spec (stars : List ScreenStar) (width height : ℝ) (count : ℕ)
    (rand : ℕ → ℝ) :
    (stars ≠ [] → ensureStars stars width height count rand = stars) ∧
      resizeStars stars = [] ∧
      ((∀ n, 0 ≤ rand n ∧ rand n < 1) → 0 < width → 0 < height →
        (ensureStars [] width height count rand).length = count ∧
          ∀ s ∈ ensureStars [] width height count rand,
            (0 ≤ s.x ∧ s.x < width) ∧ (0 ≤ s.y ∧ s.y < height) ∧
              (0 ≤ s.radius ∧ s.radius < 1.5) ∧
              (0.2 ≤ s.opacity ∧ s.opacity < 1)) := by
  refine ⟨?_, rfl, ?_⟩
  · intro hne
    rw [ensureStars, if_pos (List.length_pos.mpr hne)]
  · intro hr hw hh
    have hlist : ensureStars [] width height count rand
        = (List.range count).map fun k =>
            ({ x := rand (4 * k) * width, y := rand (4 * k + 1) * height,
               radius := rand (4 * k + 2) * 1.5,
               opacity := rand (4 * k + 3) * 0.8 + 0.2 } : ScreenStar) := by
      rw [ensureStars, if_neg (by simp)]
    constructor
    · rw [hlist, List.length_map, List.length_range]
    · intro s hs
      rw [hlist] at hs
      obtain ⟨k, _, rfl⟩ := List.mem_map.mp hs
      obtain ⟨hx0, hx1⟩ := hr (4 * k)
      obtain ⟨hy0, hy1⟩ := hr (4 * k + 1)
      obtain ⟨hrad0, hrad1⟩ := hr (4 * k + 2)
      obtain ⟨ho0, ho1⟩ := hr (4 * k + 3)
      dsimp only
      refine ⟨⟨mul_nonneg hx0 hw.le, ?_⟩, ⟨mul_nonneg hy0 hh.le, ?_⟩,
        ⟨mul_nonneg hrad0 (by norm_num), by linarith⟩,
        ⟨by linarith, by linarith⟩⟩
      · calc rand (4 * k) * width < 1 * width :=
            mul_lt_mul_of_pos_right hx1 hw
          _ = width := one_mul width
      · calc rand (4 * k + 1) * height < 1 * height :=
            mul_lt_mul_of_pos_right hy1 hh
          _ = height := one_mul height

/-- Witness for C10: a non-empty cache is preserved, and after clearing, a
two-star refill with a constant stream has length two. -/
theorem ensureStars_spec_witness :
    ([⟨1, 2, 3, 4⟩] : List ScreenStar) ≠ [] ∧
      ensureStars [⟨1, 2, 3, 4⟩] 10 20 2 (fun _ => 1 / 2) = [⟨1, 2, 3, 4⟩] ∧
      (ensureStars [] 10 20 2 (fun _ => 1 / 2)).length = 2 := by
  have hne : ([⟨1, 2, 3, 4⟩] : List ScreenStar) ≠ [] := by simp
  have h := ensureStars_spec [⟨1, 2, 3, 4⟩] 10 20 2 (fun _ => 1 / 2)
  exact ⟨hne, h.1 hne,
    (h.2.2 (fun n => ⟨by norm_num, by norm_num⟩) (by norm_num)
      (by norm_num)).1⟩
